import Mathlib

/-
Verification of the CFP feature-tensor codec (`compressai_vision/codecs/idc/cfp_codec.py`)
against its natural-language specification.  The Python module is shallowly embedded:
tensors are modelled at shape level (channels × height × width), the bitstream file is a
list of byte values, and the session's mutable fields (`feature_set_order_count`,
`decoded_tensor_buffer`, `_bitstream_fd`) are threaded as explicit state.  The helper
modules `hls`, `tools`, `intra`, `inter` and `common` are not part of the sources under
review; their operations are modelled from the specification and marked as such.
-/

namespace CfpCodec

/-- Tag identifying one layer of the feature pyramid.  Encoder inputs use arbitrary
(string) tags; the decoder manufactures integer tags `0..n-1`. -/
inductive Tag where
  | str (s : String)
  | num (n : Nat)
deriving DecidableEq, Repr, Inhabited

/-- Shape-level model of one 3-D feature tensor (one tag at one time step). -/
structure FTensor3 where
  channels : Nat
  height : Nat
  width : Nat
deriving DecidableEq, Repr, Inhabited

/-- Shape-level model of one 4-D tensor: the per-frame stack for one tag. -/
structure FTensor4 where
  frames : List FTensor3
deriving DecidableEq, Repr, Inhabited

/-- The caller's `input` dict for `encode`: the `"data"` mapping plus the original
input size carried alongside it by the pipeline. -/
structure EncInput where
  data : List (Tag × FTensor4)
  org_input_height : Nat
  org_input_width : Nat
deriving DecidableEq, Repr, Inhabited

/-- Shape-level model of `F.interpolate(t, scale_factor=(num/den, num/den))`: spatial
dimensions scale by the factor with floor rounding, channels are untouched. -/
def interpolate3 (num den : Nat) (t : FTensor3) : FTensor3 :=
  { t with height := t.height * num / den, width := t.width * num / den }

/-- `F.interpolate` applied to the 4-D per-tag stack: every frame is rescaled. -/
def interpolate4 (num den : Nat) (t : FTensor4) : FTensor4 :=
  ⟨t.frames.map (interpolate3 num den)⟩

/-- The encoder configuration dictionary (`enc_cfg`) fields read by `CFP_CODEC`. -/
structure EncoderConfig where
  qp : Option Nat
  qp_density : Nat
  dc_qp_offset : Int
  dc_qp_density_offset : Nat
  downsample : Bool
  n_cluster : Nat
  intra_period : Int
  group_of_tensor : Nat
  clipping : Bool
deriving DecidableEq, Repr, Inhabited

/-- Model of the open file object stored in `self._bitstream_fd`:
after `close_files` the object is still referenced but no longer open. -/
structure FileHandle where
  isOpen : Bool
deriving DecidableEq, Repr, Inhabited

/-- The mutable session state of `CFP_CODEC`: the fields assigned by `reset`. -/
structure CodecState where
  feature_set_order_count : Int
  decoded_tensor_buffer : List (List (Tag × FTensor3))
  bitstream_fd : Option FileHandle
deriving DecidableEq, Repr, Inhabited

/-- `CFP_CODEC.reset`: sets `feature_set_order_count = -1`, empties
`decoded_tensor_buffer`, and drops the bitstream file descriptor. -/
def CFP_CODEC.reset : CodecState :=
  { feature_set_order_count := -1
    decoded_tensor_buffer := []
    bitstream_fd := none }

/-- Failures of the assertions in `CFP_CODEC.__init__`, in source order. -/
inductive ConfigError where
  | qpDensityRange
  | dcDensityRange
  | qpMissing
deriving DecidableEq, Repr, Inhabited

deriving instance DecidableEq for Except

/-- Result of constructing a session: either a configuration error or the freshly
reset state; `filesOpened` records every file opened during construction
(`__init__` contains no file operation, so it is empty on every path). -/
structure InitOutcome where
  result : Except ConfigError CodecState
  filesOpened : List FileHandle
deriving DecidableEq, Repr

/-- `CFP_CODEC.__init__`: checks `0 < qp_density <= 5`, then
`qp_density + dc_qp_density_offset <= 5`, then `qp is not None`, in that order,
and ends by calling `reset`.  No file is opened or written. -/
def CFP_CODEC.init (cfg : EncoderConfig) : InitOutcome :=
  if ¬ (0 < cfg.qp_density ∧ cfg.qp_density ≤ 5) then
    ⟨.error .qpDensityRange, []⟩
  else if ¬ (cfg.qp_density + cfg.dc_qp_density_offset ≤ 5) then
    ⟨.error .dcDensityRange, []⟩
  else if cfg.qp = none then
    ⟨.error .qpMissing, []⟩
  else
    ⟨.ok CFP_CODEC.reset, []⟩

/-- Self-delimiting byte encoding of a natural number used by the modelled
serializers: `n` zero bytes followed by a terminating `1` byte. -/
def natUnary (n : Nat) : List Nat :=
  List.replicate n 0 ++ [1]

/-- Parse one `natUnary`-encoded natural from the front of a byte list. -/
def parseNatU : List Nat → Option (Nat × List Nat)
  | [] => none
  | 0 :: rest =>
    match parseNatU rest with
    | some (n, r) => some (n + 1, r)
    | none => none
  | 1 :: rest => some (0, rest)
  | _ => none

theorem parseNatU_natUnary (n : Nat) (rest : List Nat) :
    parseNatU (natUnary n ++ rest) = some (n, rest) := by
  induction n with
  | zero => rfl
  | succ k ih =>
    have hstep : natUnary (k + 1) ++ rest = 0 :: (natUnary k ++ rest) := by
      simp [natUnary, List.replicate_succ]
    rw [hstep]
    simp only [parseNatU, ih]

/-- Byte encoding of a boolean flag. -/
def boolBytes (b : Bool) : List Nat :=
  [if b then 1 else 0]

/-- Parse one boolean byte. -/
def parseBool : List Nat → Option (Bool × List Nat)
  | 0 :: rest => some (false, rest)
  | 1 :: rest => some (true, rest)
  | _ => none

theorem parseBool_boolBytes (b : Bool) (rest : List Nat) :
    parseBool (boolBytes b ++ rest) = some (b, rest) := by
  cases b <;> rfl

/-- Byte encoding of a signed integer: a sign byte followed by the magnitude. -/
def intBytes (i : Int) : List Nat :=
  if i < 0 then 0 :: natUnary (-i).toNat else 1 :: natUnary i.toNat

/-- Parse one `intBytes`-encoded integer. -/
def parseIntB : List Nat → Option (Int × List Nat)
  | 0 :: rest =>
    match parseNatU rest with
    | some (n, r) => some (-(n : Int), r)
    | none => none
  | 1 :: rest =>
    match parseNatU rest with
    | some (n, r) => some ((n : Int), r)
    | none => none
  | _ => none

theorem parseIntB_intBytes (i : Int) (rest : List Nat) :
    parseIntB (intBytes i ++ rest) = some (i, rest) := by
  by_cases h : i < 0
  · simp only [intBytes, if_pos h, List.cons_append, parseIntB, parseNatU_natUnary]
    have : ((-i).toNat : Int) = -i := Int.toNat_of_nonneg (by omega)
    rw [this, neg_neg]
  · simp only [intBytes, if_neg h, List.cons_append, parseIntB, parseNatU_natUnary]
    rw [Int.toNat_of_nonneg (by omega)]

/-- Parse a fixed count of `natUnary`-encoded naturals. -/
def parseNatsU : Nat → List Nat → Option (List Nat × List Nat)
  | 0, bs => some ([], bs)
  | n + 1, bs =>
    match parseNatU bs with
    | some (v, r) =>
      match parseNatsU n r with
      | some (vs, r2) => some (v :: vs, r2)
      | none => none
    | none => none

theorem parseNatsU_flatten (l : List Nat) (rest : List Nat) :
    parseNatsU l.length ((l.map natUnary).flatten ++ rest) = some (l, rest) := by
  induction l with
  | nil => rfl
  | cons x xs ih =>
    simp only [List.map_cons, List.flatten_cons, List.length_cons, List.append_assoc,
      parseNatsU, parseNatU_natUnary, ih]

/-- Modelled from the spec: the `SequenceParameterSet` of the missing `hls`
module.  Fields are those of the spec's SequenceHeader data model and the
attributes read by `CFP_CODEC.decode` (`nbframes`, `is_downsampled`,
`org_input_height/width`, `input_height/width`, `size_of_feature_set`). -/
structure SequenceParameterSet where
  nbframes : Nat
  qp : Nat
  qp_density : Nat
  is_downsampled : Bool
  dc_qp_offset : Int
  dc_qp_density_offset : Nat
  org_input_height : Nat
  org_input_width : Nat
  input_height : Nat
  input_width : Nat
  size_of_feature_set : Nat
  subframe_heights : List Nat
deriving DecidableEq, Repr, Inhabited

/-- Modelled from the spec: `sps.digest(**input)` derives the structural header
fields (tag count, per-tag spatial sizes, original and coded sizes) from the
input mapping; the write-time parameters are filled in by `write`. -/
def SequenceParameterSet.digest (input : EncInput) : SequenceParameterSet :=
  let firstT : FTensor3 :=
    match input.data with
    | [] => default
    | (_, x) :: _ => x.frames.headD default
  { nbframes := 0
    qp := 0
    qp_density := 0
    is_downsampled := false
    dc_qp_offset := 0
    dc_qp_density_offset := 0
    org_input_height := input.org_input_height
    org_input_width := input.org_input_width
    input_height := firstT.height
    input_width := firstT.width
    size_of_feature_set := input.data.length
    subframe_heights := input.data.map (fun p => (p.2.frames.headD default).height) }

/-- Serialization of all header fields in a fixed order. -/
def SequenceParameterSet.serialize (h : SequenceParameterSet) : List Nat :=
  natUnary h.nbframes ++ natUnary h.qp ++ natUnary h.qp_density ++
  boolBytes h.is_downsampled ++ intBytes h.dc_qp_offset ++
  natUnary h.dc_qp_density_offset ++ natUnary h.org_input_height ++
  natUnary h.org_input_width ++ natUnary h.input_height ++
  natUnary h.input_width ++ natUnary h.size_of_feature_set ++
  (h.subframe_heights.map natUnary).flatten

/-- Modelled from the spec: `sps.write(fd, nbframes, qp, qp_density, downsample,
dc_qp_offset, dc_qp_density_offset)` serializes every header field in a fixed
order and returns the bytes appended to the stream (the Python method returns
their count). -/
def SequenceParameterSet.write (h : SequenceParameterSet) (nbframes qp qp_density : Nat)
    (downsample : Bool) (dc_off : Int) (dc_den : Nat) : List Nat :=
  SequenceParameterSet.serialize
    { h with
      nbframes := nbframes
      qp := qp
      qp_density := qp_density
      is_downsampled := downsample
      dc_qp_offset := dc_off
      dc_qp_density_offset := dc_den }

/-- Modelled from the spec: `sps.read(fd)` parses the same fields in the same
order; the per-tag subframe heights are read using the already-parsed tag count. -/
def SequenceParameterSet.read (bs : List Nat) :
    Option (SequenceParameterSet × List Nat) :=
  match parseNatU bs with
  | none => none
  | some (nbframes, b1) =>
  match parseNatU b1 with
  | none => none
  | some (qp, b2) =>
  match parseNatU b2 with
  | none => none
  | some (qpd, b3) =>
  match parseBool b3 with
  | none => none
  | some (ds, b4) =>
  match parseIntB b4 with
  | none => none
  | some (dco, b5) =>
  match parseNatU b5 with
  | none => none
  | some (dcd, b6) =>
  match parseNatU b6 with
  | none => none
  | some (oh, b7) =>
  match parseNatU b7 with
  | none => none
  | some (ow, b8) =>
  match parseNatU b8 with
  | none => none
  | some (ih, b9) =>
  match parseNatU b9 with
  | none => none
  | some (iw, b10) =>
  match parseNatU b10 with
  | none => none
  | some (nTags, b11) =>
  match parseNatsU nTags b11 with
  | none => none
  | some (hs, b12) =>
    some (⟨nbframes, qp, qpd, ds, dco, dcd, oh, ow, ih, iw, nTags, hs⟩, b12)

theorem sps_read_serialize (h : SequenceParameterSet) (rest : List Nat)
    (hlen : h.subframe_heights.length = h.size_of_feature_set) :
    SequenceParameterSet.read (h.serialize ++ rest) = some (h, rest) := by
  simp only [SequenceParameterSet.serialize, List.append_assoc, SequenceParameterSet.read,
    parseNatU_natUnary, parseBool_boolBytes, parseIntB_intBytes]
  rw [← hlen, parseNatsU_flatten]
  simp [hlen]

/-- One time step's feature tensor set: the per-tag 3-D tensors. -/
abbrev Frame := List (Tag × FTensor3)

/-- A cluster assignment: for each tag, the list of channel-index clusters. -/
abbrev ClusterMap := List (Tag × List (List Nat))

/-- A coding group map: for each tag and each original channel index, the
representative channel index that reconstructs it. -/
abbrev CodingGroups := List (Tag × List Nat)

/-- The per-set coding type marker of the missing `common` module. -/
inductive FeatureTensorCodingType where
  | I_TYPE
  | PB_TYPE
deriving DecidableEq, Repr, Inhabited

/-- Modelled from the spec: `search_for_N_clusters` of the missing `tools` module
groups each tag's channel indices into `n` clusters by a deterministic similarity
proxy; the model uses a deterministic round-robin grouping of the channel
indices, which preserves the properties the session relies on (determinism and
full coverage of the channel indices). -/
def search_for_N_clusters (frame : Frame) (nCluster : Nat) : ClusterMap :=
  frame.map (fun p =>
    (p.1, (List.range nCluster).map
      (fun k => (List.range p.2.channels).filter (fun i => i % nCluster = k))))

/-- Representative channel of the cluster containing channel `i`. -/
def clusterRep (cs : List (List Nat)) (i : Nat) : Nat :=
  match cs.find? (fun c => c.contains i) with
  | some c => c.headD i
  | none => i

/-- Modelled from the spec: `feature_channel_suppression` reduces each tag to one
representative channel per nonempty cluster and produces, for every original
channel index, the representative that reconstructs it. -/
def feature_channel_suppression (frame : Frame) (cm : ClusterMap) :
    Frame × CodingGroups :=
  ( frame.map (fun p =>
      let cs := (cm.lookup p.1).getD []
      (p.1, { p.2 with channels := (cs.filter (fun c => ¬ c.isEmpty)).length })),
    frame.map (fun p =>
      let cs := (cm.lookup p.1).getD []
      (p.1, (List.range p.2.channels).map (clusterRep cs))) )

/-- Per-tag payload record: the full channel count recovered from the coding
groups, and the coded spatial size. -/
def shapeBytes (channels height width : Nat) : List Nat :=
  natUnary channels ++ natUnary height ++ natUnary width

/-- Payload of one coded tensor set: for every tag, its full channel count and
coded spatial dimensions. -/
def tensorPayload (toCode : Frame) (groups : CodingGroups) : List Nat :=
  ((toCode.zip groups).map
    (fun q => shapeBytes q.2.2.length q.1.2.height q.1.2.width)).flatten

/-- Modelled from the spec: `intra_coding(enc_cfg, channels, groups, fd)` writes
the 1-byte Intra marker followed by the set's payload and returns the written
bytes (the Python function returns their count) together with the locally
dequantized full-channel reconstruction. -/
def intra_coding (_cfg : EncoderConfig) (toCode : Frame) (groups : CodingGroups) :
    List Nat × Frame :=
  ( 0 :: tensorPayload toCode groups,
    (toCode.zip groups).map (fun q => (q.1.1, { q.1.2 with channels := q.2.2.length })) )

/-- Modelled from the spec: `inter_coding(enc_cfg, channels, groups, fd)` writes
the 1-byte InterPredicted marker followed by the residual payload against the
previously decoded set and returns the written bytes and the reconstruction. -/
def inter_coding (_cfg : EncoderConfig) (toCode : Frame) (groups : CodingGroups) :
    List Nat × Frame :=
  ( 1 :: tensorPayload toCode groups,
    (toCode.zip groups).map (fun q => (q.1.1, { q.1.2 with channels := q.2.2.length })) )

/-- The `encode_feature_tensor` dispatch dictionary keyed by coding type. -/
def encode_feature_tensor (t : FeatureTensorCodingType) :
    EncoderConfig → Frame → CodingGroups → List Nat × Frame :=
  match t with
  | .I_TYPE => intra_coding
  | .PB_TYPE => inter_coding

/-- Modelled from the spec: `parse_feature_tensor_coding_type` of the missing
`hls` module reads the 1-byte marker (`0 = Intra`, `1 = InterPredicted`). -/
def parse_feature_tensor_coding_type (bs : List Nat) :
    Option (FeatureTensorCodingType × List Nat) :=
  match bs with
  | 0 :: rest => some (.I_TYPE, rest)
  | 1 :: rest => some (.PB_TYPE, rest)
  | _ => none

/-- Parse a fixed count of per-tag shape records. -/
def parseShapes : Nat → List Nat → Option (List FTensor3 × List Nat)
  | 0, bs => some ([], bs)
  | n + 1, bs =>
    match parseNatU bs with
    | none => none
    | some (c, b1) =>
    match parseNatU b1 with
    | none => none
    | some (hgt, b2) =>
    match parseNatU b2 with
    | none => none
    | some (w, b3) =>
    match parseShapes n b3 with
    | none => none
    | some (ts, b4) => some (⟨c, hgt, w⟩ :: ts, b4)

/-- Modelled from the spec: `intra_decoding(sps, fd)` parses one intra set's
payload and returns the reconstructed full-channel tensors, one per tag of the
sequence header. -/
def intra_decoding (sps : SequenceParameterSet) (bs : List Nat) :
    Option (List FTensor3 × List Nat) :=
  parseShapes sps.size_of_feature_set bs

/-- Modelled from the spec: `inter_decoding(sps, fd)` parses one inter set's
residual payload, adds it to the hidden reference, and returns the reconstructed
full-channel tensors, one per tag of the sequence header. -/
def inter_decoding (sps : SequenceParameterSet) (bs : List Nat) :
    Option (List FTensor3 × List Nat) :=
  parseShapes sps.size_of_feature_set bs

/-- The `decode_feature_tensor` dispatch dictionary keyed by coding type. -/
def decode_feature_tensor (t : FeatureTensorCodingType) :
    SequenceParameterSet → List Nat → Option (List FTensor3 × List Nat) :=
  match t with
  | .I_TYPE => intra_decoding
  | .PB_TYPE => inter_decoding

/-- The encoder's view of `input["data"]` after the optional in-place downsample. -/
def dataAfterDownsample (cfg : EncoderConfig) (input : EncInput) :
    List (Tag × FTensor4) :=
  if cfg.downsample then
    input.data.map (fun p => (p.1, interpolate4 1 2 p.2))
  else input.data

/-- `nbframes`: the first layer's frame count (`layer_nbframes[0]`). -/
def nbframesOf (d : List (Tag × FTensor4)) : Nat :=
  match d with
  | [] => 0
  | (_, x) :: _ => x.frames.length

/-- The per-time-step tensor sets yielded by `iterate_list_of_tensors`:
set `e` maps each tag to its `e`-th frame. -/
def framesOf (data : List (Tag × FTensor4)) (n : Nat) : List Frame :=
  (List.range n).map (fun e => data.map (fun p => (p.1, p.2.frames.getD e default)))

/-- Failures raised inside `CFP_CODEC.encode`, in Python terms: the `IndexError`
on an empty input mapping, the `AssertionError` of the frame-count check, and
the `NameError` when an inter set is coded with no cluster assignment bound. -/
inductive EncErr where
  | indexError
  | shapeMismatch
  | nameError
deriving DecidableEq, Repr, Inhabited

/-- Record of one encoded time step: its coding type, whether the cluster search
ran on this step, and the cluster assignment passed to channel suppression. -/
structure StepLog where
  ftype : FeatureTensorCodingType
  searched : Bool
  clustersUsed : ClusterMap
deriving DecidableEq, Repr, Inhabited

/-- The dictionary returned by a successful `encode`: the per-set byte counts and
the written bitstream (the Python function returns its path; the model returns
the file's contents). -/
structure EncSuccess where
  bytes : List Nat
  bitstream : List Nat
deriving DecidableEq, Repr, Inhabited

/-- Full observable effect of one `encode` call: its result, the bitstream file
(`none` when no file was ever created), the session state after the call, the
caller's mutated `input["data"]`, and the per-step log. -/
structure EncodeOutcome where
  result : Except EncErr EncSuccess
  file : Option (List Nat)
  state : CodecState
  dataAfter : List (Tag × FTensor4)
  log : List StepLog
deriving DecidableEq, Repr

/-- The per-set type decision of the encode loop, at the already advanced value
of `feature_set_order_count`: all-intra when `intra_period == -1`, otherwise
intra exactly when the counter is a multiple of `intra_period`. -/
def stepIntra (cfg : EncoderConfig) (count1 : Int) : Bool :=
  cfg.intra_period == -1 || count1 % cfg.intra_period == 0

/-- The coding type assigned to a set by the encode loop. -/
def stepTypeOf (cfg : EncoderConfig) (count1 : Int) : FeatureTensorCodingType :=
  if stepIntra cfg count1 then .I_TYPE else .PB_TYPE

/-- The cluster assignment bound after one loop iteration: recomputed by the
cluster search on an intra set, otherwise the previously bound one. -/
def nextAsg (cfg : EncoderConfig) (f : Frame) (count1 : Int)
    (asg : Option ClusterMap) : Option ClusterMap :=
  if stepIntra cfg count1 then some (search_for_N_clusters f cfg.n_cluster) else asg

/-- The bytes one loop iteration appends to the bitstream: the dispatched
engine's marker and payload for the suppressed channels of this set. -/
def chunkOf (cfg : EncoderConfig) (f : Frame) (count1 : Int) (cm : ClusterMap) :
    List Nat :=
  (encode_feature_tensor (stepTypeOf cfg count1) cfg
    (feature_channel_suppression f cm).1 (feature_channel_suppression f cm).2).1

/-- The per-set loop of `CFP_CODEC.encode`: advances the order counter, decides
the coding type, runs the cluster search on intra sets, suppresses channels with
the currently bound assignment, and dispatches to the coding engine.  On error
it reports how many sets advanced the counter and the chunks already written. -/
def encodeLoop (cfg : EncoderConfig) :
    List Frame → Int → Option ClusterMap → Nat →
    Except (EncErr × Nat × List (List Nat))
      (List Nat × List (List Nat) × List StepLog)
  | [], _, _, _ => .ok ([], [], [])
  | f :: rest, count, asg, bytesTotal =>
    match nextAsg cfg f (count + 1) asg with
    | none => .error (.nameError, 1, [])
    | some cm =>
      match encodeLoop cfg rest (count + 1) (nextAsg cfg f (count + 1) asg) 0 with
      | .error (err, k, cs) =>
        .error (err, k + 1, chunkOf cfg f (count + 1) cm :: cs)
      | .ok (bl, cs, lg) =>
        .ok ((bytesTotal + (chunkOf cfg f (count + 1) cm).length) :: bl,
          chunkOf cfg f (count + 1) cm :: cs,
          ⟨stepTypeOf cfg (count + 1), stepIntra cfg (count + 1), cm⟩ :: lg)

/-- The header bytes written by `encode` for a given configuration and input. -/
def headerBytesOf (cfg : EncoderConfig) (input : EncInput) : List Nat :=
  let d := dataAfterDownsample cfg input
  SequenceParameterSet.write
    (SequenceParameterSet.digest { input with data := d })
    (nbframesOf d) (cfg.qp.getD 0) cfg.qp_density cfg.downsample
    cfg.dc_qp_offset cfg.dc_qp_density_offset

/-- Body of `CFP_CODEC.encode` after the in-place downsample: frame-count check,
file creation, header write, per-set loop, and `close_files` on completion. -/
def encodeCore (cfg : EncoderConfig) (st : CodecState) (orgH orgW : Nat)
    (data1 : List (Tag × FTensor4)) : EncodeOutcome :=
  match data1 with
  | [] =>
    { result := .error .indexError, file := none, state := st,
      dataAfter := [], log := [] }
  | (t0, x0) :: rest =>
    if rest.all (fun p => p.2.frames.length == x0.frames.length) then
      let nbframes := x0.frames.length
      let headerBytes :=
        SequenceParameterSet.write
          (SequenceParameterSet.digest ⟨(t0, x0) :: rest, orgH, orgW⟩)
          nbframes (cfg.qp.getD 0) cfg.qp_density cfg.downsample
          cfg.dc_qp_offset cfg.dc_qp_density_offset
      match encodeLoop cfg (framesOf ((t0, x0) :: rest) nbframes)
          st.feature_set_order_count none headerBytes.length with
      | .error (err, k, cs) =>
        { result := .error err
          file := some (headerBytes ++ cs.flatten)
          state := { st with
            feature_set_order_count := st.feature_set_order_count + k
            bitstream_fd := some ⟨true⟩ }
          dataAfter := [], log := [] }
      | .ok (bl, cs, lg) =>
        { result := .ok ⟨bl, headerBytes ++ cs.flatten⟩
          file := some (headerBytes ++ cs.flatten)
          state := { st with
            feature_set_order_count := st.feature_set_order_count + nbframes
            bitstream_fd := some ⟨false⟩ }
          dataAfter := [], log := lg }
    else
      { result := .error .shapeMismatch, file := none, state := st,
        dataAfter := [], log := [] }

/-- `CFP_CODEC.encode`: optional in-place downsample of the caller's mapping,
then the encode body; `dataAfter` is what the caller's `input["data"]` holds
when the call returns. -/
def CFP_CODEC.encode (cfg : EncoderConfig) (st : CodecState) (input : EncInput) :
    EncodeOutcome :=
  let data1 := dataAfterDownsample cfg input
  { encodeCore cfg st input.org_input_height input.org_input_width data1 with
    dataAfter := data1 }

/-- Failures raised inside `CFP_CODEC.decode`: a truncated or unreadable header,
or a truncated or unreadable set payload. -/
inductive DecErr where
  | headerTruncated
  | setTruncated
deriving DecidableEq, Repr, Inhabited

/-- The dictionary returned by a successful `decode`: original and coded sizes
and the reconstructed per-tag tensors (tags are the decoder's `range` indices). -/
structure DecodeOutput where
  org_input_height : Nat
  org_input_width : Nat
  input_height : Nat
  input_width : Nat
  data : List (Tag × FTensor4)
deriving DecidableEq, Repr, Inhabited

/-- Observable effect of one `decode` call: its result and the session state
after the call. -/
structure DecodeOutcome where
  result : Except DecErr DecodeOutput
  state : CodecState
deriving DecidableEq, Repr

/-- The per-set loop of `CFP_CODEC.decode`: reads the coding-type marker, then
dispatches to the matching decoding engine, once per coded set. -/
def decodeLoop (sps : SequenceParameterSet) :
    Nat → List Nat → Option (List (List FTensor3) × List Nat)
  | 0, bs => some ([], bs)
  | n + 1, bs =>
    match parse_feature_tensor_coding_type bs with
    | none => none
    | some (t, b1) =>
    match decode_feature_tensor t sps b1 with
    | none => none
    | some (fs, b2) =>
    match decodeLoop sps n b2 with
    | none => none
    | some (sets, b3) => some (fs :: sets, b3)

/-- `CFP_CODEC.decode`: opens the bitstream, reads the sequence parameter set,
decodes every set, closes the file, stacks the per-tag reconstructions under
`range` tags, and upsamples if the header flags downsampling.  The session's
`decoded_tensor_buffer` and `feature_set_order_count` are never touched. -/
def CFP_CODEC.decode (st : CodecState) (file : List Nat) : DecodeOutcome :=
  let stOpen : CodecState := { st with bitstream_fd := some ⟨true⟩ }
  match SequenceParameterSet.read file with
  | none => { result := .error .headerTruncated, state := stOpen }
  | some (sps, b1) =>
    match decodeLoop sps sps.nbframes b1 with
    | none => { result := .error .setTruncated, state := stOpen }
    | some (sets, _) =>
      let stacked : List (Tag × FTensor4) :=
        (List.range sps.size_of_feature_set).map
          (fun i => (Tag.num i, ⟨sets.map (fun s => s.getD i default)⟩))
      let finalData :=
        if sps.is_downsampled then
          stacked.map (fun p => (p.1, interpolate4 2 1 p.2))
        else stacked
      { result := .ok ⟨sps.org_input_height, sps.org_input_width,
          sps.input_height, sps.input_width, finalData⟩
        state := { stOpen with bitstream_fd := some ⟨false⟩ } }

/-- The success payload of an encode outcome (defaulting on error). -/
def encOk (o : EncodeOutcome) : EncSuccess :=
  match o.result with
  | .ok s => s
  | .error _ => default

/-- The success payload of a decode outcome (defaulting on error). -/
def decOk (o : DecodeOutcome) : DecodeOutput :=
  match o.result with
  | .ok s => s
  | .error _ => default

/-- A concrete valid encoder configuration used by the witness runs. -/
def exCfg : EncoderConfig :=
  { qp := some 1, qp_density := 1, dc_qp_offset := 0, dc_qp_density_offset := 0,
    downsample := true, n_cluster := 1, intra_period := 2, group_of_tensor := 1,
    clipping := false }

/-- A concrete one-tag, one-frame input with a string tag, as the pipelines use. -/
def exInput : EncInput :=
  { data := [(Tag.str "p2", ⟨[⟨2, 2, 2⟩]⟩)],
    org_input_height := 2, org_input_width := 2 }

/-- The encode run of the concrete example on a freshly reset session. -/
def exOutcome : EncodeOutcome := CFP_CODEC.encode exCfg CFP_CODEC.reset exInput

/-- The bitstream file written by the concrete example run. -/
def exFile : List Nat := (encOk exOutcome).bitstream

/-- A concrete three-frame, two-tag input for the schedule and reuse witnesses. -/
def exInput3 : EncInput :=
  { data := [(Tag.str "p2", ⟨[⟨2, 2, 2⟩, ⟨2, 2, 2⟩, ⟨2, 2, 2⟩]⟩),
             (Tag.str "p3", ⟨[⟨4, 2, 2⟩, ⟨4, 2, 2⟩, ⟨4, 2, 2⟩]⟩)],
    org_input_height := 2, org_input_width := 2 }

/-- The encode run of the three-frame example on a freshly reset session. -/
def exOutcome3 : EncodeOutcome := CFP_CODEC.encode exCfg CFP_CODEC.reset exInput3

/-- An invalid configuration: the required qp value is missing. -/
def exBadCfg : EncoderConfig := { exCfg with qp := none }

/-- An input whose two tags have different frame counts. -/
def exMismatch : EncInput :=
  { data := [(Tag.str "p2", ⟨[⟨2, 2, 2⟩]⟩),
             (Tag.str "p3", ⟨[⟨4, 2, 2⟩, ⟨4, 2, 2⟩]⟩)],
    org_input_height := 2, org_input_width := 2 }

/-- C5: constructing a codec session with `qp = None`, or `qp_density = 0`, or
`qp_density + dc_qp_density_offset > 5`, fails with a configuration error at
construction time, and construction performs no file I/O. -/
theorem c5_config_rejection (cfg : EncoderConfig)
    (h : cfg.qp = none ∨ cfg.qp_density = 0 ∨
      5 < cfg.qp_density + cfg.dc_qp_density_offset) :
    (∃ e, (CFP_CODEC.init cfg).result = Except.error e) ∧
      (CFP_CODEC.init cfg).filesOpened = [] := by
  by_cases h1 : 0 < cfg.qp_density ∧ cfg.qp_density ≤ 5
  · by_cases h2 : cfg.qp_density + cfg.dc_qp_density_offset ≤ 5
    · by_cases h3 : cfg.qp = none
      · refine ⟨⟨ConfigError.qpMissing, ?_⟩, ?_⟩ <;>
          simp [CFP_CODEC.init, h1.1, h1.2, h2, h3]
      · exfalso
        rcases h with h | h | h
        · exact h3 h
        · omega
        · omega
    · refine ⟨⟨ConfigError.dcDensityRange, ?_⟩, ?_⟩ <;>
        simp [CFP_CODEC.init, h1.1, h1.2, h2]
  · refine ⟨⟨ConfigError.qpDensityRange, ?_⟩, ?_⟩ <;>
      simp [CFP_CODEC.init, h1]

/-- Witness for C5 at a concrete invalid configuration (missing qp). -/
theorem c5_config_rejection_witness :
    (exBadCfg.qp = none ∨ exBadCfg.qp_density = 0 ∨
      5 < exBadCfg.qp_density + exBadCfg.dc_qp_density_offset) ∧
    ((∃ e, (CFP_CODEC.init exBadCfg).result = Except.error e) ∧
      (CFP_CODEC.init exBadCfg).filesOpened = []) :=
  ⟨by decide, c5_config_rejection exBadCfg (by decide)⟩

/-- C7 (amended): `decode` never touches the session's `decoded_tensor_buffer`;
the buffer keeps whatever value `reset` gave it on every decode path. -/
theorem c7_buffer_never_updated (st : CodecState) (file : List Nat) :
    (CFP_CODEC.decode st file).state.decoded_tensor_buffer =
      st.decoded_tensor_buffer := by
  unfold CFP_CODEC.decode
  split
  · rfl
  · split <;> rfl

/-- C7 counterexample: after a concrete successful decode whose reconstruction
is nonempty, the session's reference buffer is still empty, so it does not hold
the newly reconstructed tensor set as the claim requires. -/
theorem c7_buffer_not_updated_cex :
    (CFP_CODEC.decode CFP_CODEC.reset exFile).state.decoded_tensor_buffer = [] ∧
    (decOk (CFP_CODEC.decode CFP_CODEC.reset exFile)).data ≠ [] ∧
    (CFP_CODEC.decode CFP_CODEC.reset exFile).result =
      Except.ok (decOk (CFP_CODEC.decode CFP_CODEC.reset exFile)) := by decide

/-- C8 counterexample: `reset` sets the frame-order counter to `-1`, not `0`. -/
theorem c8_reset_counter_not_zero :
    CFP_CODEC.reset.feature_set_order_count ≠ 0 := by decide

/-- C8 (amended): `reset` sets the frame-order counter to `-1` (the loop
pre-increments, so the first processed set observes value `0`), empties the
decoded reference buffer, and drops the file handle; there is no per-session
stored cluster assignment to clear, and neither `decode` (which preserves the
counter) nor `encode` (which only advances it) performs this clearing. -/
theorem c8_reset_effect :
    CFP_CODEC.reset = { feature_set_order_count := -1,
                        decoded_tensor_buffer := [],
                        bitstream_fd := none } ∧
    (∀ st file, (CFP_CODEC.decode st file).state.feature_set_order_count =
      st.feature_set_order_count) ∧
    (∀ cfg st input, st.feature_set_order_count ≤
      (CFP_CODEC.encode cfg st input).state.feature_set_order_count) := by
  refine ⟨rfl, ?_, ?_⟩
  · intro st file
    unfold CFP_CODEC.decode
    split
    · rfl
    · split <;> rfl
  · intro cfg st input
    show st.feature_set_order_count ≤
      (encodeCore cfg st input.org_input_height input.org_input_width
        (dataAfterDownsample cfg input)).state.feature_set_order_count
    rcases hd : dataAfterDownsample cfg input with - | ⟨⟨t0, x0⟩, rest⟩
    · exact le_refl _
    · by_cases hall : (rest.all fun r => r.2.frames.length == x0.frames.length) = true
      · simp only [encodeCore]
        rw [if_pos hall]
        rcases hloop : encodeLoop cfg (framesOf ((t0, x0) :: rest) x0.frames.length)
            st.feature_set_order_count none
            ((SequenceParameterSet.digest ⟨(t0, x0) :: rest, input.org_input_height,
                input.org_input_width⟩).write x0.frames.length (cfg.qp.getD 0)
              cfg.qp_density cfg.downsample cfg.dc_qp_offset
              cfg.dc_qp_density_offset).length
          with ⟨⟨err, k, cs⟩⟩ | ⟨⟨bl, cs, lg⟩⟩
        · show st.feature_set_order_count ≤ st.feature_set_order_count + (k : Int)
          omega
        · show st.feature_set_order_count ≤
            st.feature_set_order_count + (x0.frames.length : Int)
          omega
      · simp only [encodeCore]
        rw [if_neg hall]

/-- C9 (amended): the bitstream handle is closed when `encode` or `decode`
returns successfully, but not on every exit path. -/
theorem c9_closed_on_success :
    (∀ st file s, (CFP_CODEC.decode st file).result = Except.ok s →
      (CFP_CODEC.decode st file).state.bitstream_fd = some ⟨false⟩) ∧
    (∀ cfg st input s, (CFP_CODEC.encode cfg st input).result = Except.ok s →
      (CFP_CODEC.encode cfg st input).state.bitstream_fd = some ⟨false⟩) := by
  constructor
  · intro st file s h
    unfold CFP_CODEC.decode at h ⊢
    split at h
    · exact absurd h (by simp)
    · split at h
      · exact absurd h (by simp)
      · rfl
  · intro cfg st input s h
    replace h : (encodeCore cfg st input.org_input_height input.org_input_width
        (dataAfterDownsample cfg input)).result = Except.ok s := h
    show (encodeCore cfg st input.org_input_height input.org_input_width
        (dataAfterDownsample cfg input)).state.bitstream_fd = some ⟨false⟩
    rcases hd : dataAfterDownsample cfg input with - | ⟨⟨t0, x0⟩, rest⟩ <;>
      rw [hd] at h
    · simp [encodeCore] at h
    · by_cases hall : (rest.all fun r => r.2.frames.length == x0.frames.length) = true
      · simp only [encodeCore] at h ⊢
        rw [if_pos hall] at h ⊢
        rcases hloop : encodeLoop cfg (framesOf ((t0, x0) :: rest) x0.frames.length)
            st.feature_set_order_count none
            ((SequenceParameterSet.digest ⟨(t0, x0) :: rest, input.org_input_height,
                input.org_input_width⟩).write x0.frames.length (cfg.qp.getD 0)
              cfg.qp_density cfg.downsample cfg.dc_qp_offset
              cfg.dc_qp_density_offset).length
          with ⟨⟨err, k, cs⟩⟩ | ⟨⟨bl, cs, lg⟩⟩
        · rw [hloop] at h
          exact absurd h (by simp)
        · rfl
      · simp only [encodeCore] at h
        rw [if_neg hall] at h
        exact absurd h (by simp)

/-- Witness for C9 at the concrete example decode, whose result is successful. -/
theorem c9_closed_on_success_witness :
    (CFP_CODEC.decode CFP_CODEC.reset exFile).result =
      Except.ok (decOk (CFP_CODEC.decode CFP_CODEC.reset exFile)) ∧
    (CFP_CODEC.decode CFP_CODEC.reset exFile).state.bitstream_fd = some ⟨false⟩ :=
  ⟨by decide, c9_closed_on_success.1 CFP_CODEC.reset exFile
    (decOk (CFP_CODEC.decode CFP_CODEC.reset exFile)) (by decide)⟩

/-- C9 counterexample: decoding an empty (truncated) bitstream raises after the
file was opened, and the call returns with the handle still open, so the claim
that every exit path releases the handle fails. -/
theorem c9_leak_on_error_cex :
    (CFP_CODEC.decode CFP_CODEC.reset []).result =
      Except.error DecErr.headerTruncated ∧
    (CFP_CODEC.decode CFP_CODEC.reset []).state.bitstream_fd = some ⟨true⟩ := by
  decide

/-- C10: with downsampling enabled, `encode` replaces every tensor of the
caller's input mapping by its downsampled version in place, and whenever a
tensor has a nonzero spatial size the stored tensor is no longer the original. -/
theorem c10_downsample_mutates_input (cfg : EncoderConfig) (st : CodecState)
    (input : EncInput) (hd : cfg.downsample = true) :
    (CFP_CODEC.encode cfg st input).dataAfter =
      input.data.map (fun p => (p.1, interpolate4 1 2 p.2)) ∧
    ∀ p ∈ input.data, (∃ f ∈ p.2.frames, 0 < f.height) →
      interpolate4 1 2 p.2 ≠ p.2 := by
  constructor
  · show dataAfterDownsample cfg input = _
    unfold dataAfterDownsample
    rw [hd]
    rfl
  · rintro p _ ⟨f, hf, hpos⟩ heq
    have hframes : p.2.frames.map (interpolate3 1 2) = p.2.frames :=
      congrArg FTensor4.frames heq
    obtain ⟨i, hi, hfi⟩ := List.getElem_of_mem hf
    have h2 := congrArg (fun l => l[i]?) hframes
    simp only [List.getElem?_map] at h2
    rw [List.getElem?_eq_getElem hi, hfi] at h2
    have h3 : interpolate3 1 2 f = f := by
      simpa using h2
    have h4 := congrArg FTensor3.height h3
    simp only [interpolate3] at h4
    omega

/-- Witness for C10 at the concrete downsampling-enabled example run. -/
theorem c10_downsample_mutates_input_witness :
    exCfg.downsample = true ∧
    ((CFP_CODEC.encode exCfg CFP_CODEC.reset exInput).dataAfter =
      exInput.data.map (fun p => (p.1, interpolate4 1 2 p.2)) ∧
    ∀ p ∈ exInput.data, (∃ f ∈ p.2.frames, 0 < f.height) →
      interpolate4 1 2 p.2 ≠ p.2) :=
  ⟨by decide, c10_downsample_mutates_input exCfg CFP_CODEC.reset exInput (by decide)⟩

/-- The header bytes written by the encode body for a given post-downsample
input mapping. -/
def coreHeader (cfg : EncoderConfig) (orgH orgW : Nat)
    (data1 : List (Tag × FTensor4)) : List Nat :=
  (SequenceParameterSet.digest ⟨data1, orgH, orgW⟩).write (nbframesOf data1)
    (cfg.qp.getD 0) cfg.qp_density cfg.downsample cfg.dc_qp_offset
    cfg.dc_qp_density_offset

/-- Inversion of a successful encode body: the input mapping was nonempty and
passed the frame-count check, the per-set loop succeeded, and the result, log,
state and file are the ones of the success branch. -/
theorem encodeCore_ok_inv (cfg : EncoderConfig) (st : CodecState) (orgH orgW : Nat)
    (data1 : List (Tag × FTensor4)) (s : EncSuccess)
    (hok : (encodeCore cfg st orgH orgW data1).result = Except.ok s) :
    ∃ t0 x0 rest bl cs lg,
      data1 = (t0, x0) :: rest ∧
      (rest.all fun r => r.2.frames.length == x0.frames.length) = true ∧
      encodeLoop cfg (framesOf data1 (nbframesOf data1)) st.feature_set_order_count
        none (coreHeader cfg orgH orgW data1).length = Except.ok (bl, cs, lg) ∧
      s = ⟨bl, coreHeader cfg orgH orgW data1 ++ cs.flatten⟩ ∧
      (encodeCore cfg st orgH orgW data1).log = lg ∧
      (encodeCore cfg st orgH orgW data1).state =
        { st with
          feature_set_order_count :=
            st.feature_set_order_count + (nbframesOf data1 : Int)
          bitstream_fd := some ⟨false⟩ } ∧
      (encodeCore cfg st orgH orgW data1).file =
        some (coreHeader cfg orgH orgW data1 ++ cs.flatten) := by
  rcases data1 with - | ⟨⟨t0, x0⟩, rest⟩
  · simp [encodeCore] at hok
  · by_cases hall : (rest.all fun r => r.2.frames.length == x0.frames.length) = true
    · simp only [encodeCore] at hok ⊢
      rw [if_pos hall] at hok ⊢
      rcases hloop : encodeLoop cfg (framesOf ((t0, x0) :: rest) x0.frames.length)
          st.feature_set_order_count none
          ((SequenceParameterSet.digest ⟨(t0, x0) :: rest, orgH, orgW⟩).write
            x0.frames.length (cfg.qp.getD 0) cfg.qp_density cfg.downsample
            cfg.dc_qp_offset cfg.dc_qp_density_offset).length
        with ⟨⟨err, k, cs⟩⟩ | ⟨⟨bl, cs, lg⟩⟩
      · rw [hloop] at hok
        exact absurd hok (by simp)
      · rw [hloop] at hok
        have hs := Except.ok.inj hok
        exact ⟨t0, x0, rest, bl, cs, lg, rfl, hall, hloop, hs.symm, rfl, rfl, rfl⟩
    · simp only [encodeCore] at hok
      rw [if_neg hall] at hok
      exact absurd hok (by simp)

/-- The reported per-set byte counts of a successful loop run sum to the seed
(the header length, on a nonempty frame list) plus the bytes written by the
loop. -/
theorem encodeLoop_sum (cfg : EncoderConfig) :
    ∀ (frames : List Frame) (count : Int) (asg : Option ClusterMap) (seed : Nat)
      (bl : List Nat) (cs : List (List Nat)) (lg : List StepLog),
      encodeLoop cfg frames count asg seed = Except.ok (bl, cs, lg) →
      bl.sum = (if frames.isEmpty then 0 else seed) + cs.flatten.length := by
  intro frames
  induction frames with
  | nil =>
    intro count asg seed bl cs lg h
    simp only [encodeLoop, Except.ok.injEq, Prod.mk.injEq] at h
    obtain ⟨rfl, rfl, rfl⟩ := h
    simp
  | cons f rest ih =>
    intro count asg seed bl cs lg h
    simp only [encodeLoop] at h
    rcases hasg : nextAsg cfg f (count + 1) asg with - | cm
    · rw [hasg] at h
      exact absurd h (by simp)
    · rw [hasg] at h
      rcases hloop : encodeLoop cfg rest (count + 1) (some cm) 0
        with ⟨⟨err, k, cs0⟩⟩ | ⟨⟨bl0, cs0, lg0⟩⟩
      · rw [hloop] at h
        exact absurd h (by simp)
      · rw [hloop] at h
        have h' := Except.ok.inj h
        simp only [Prod.mk.injEq] at h'
        obtain ⟨h1, h2, h3⟩ := h'
        subst h1 h2 h3
        have hih := ih (count + 1) (some cm) 0 bl0 cs0 lg0 hloop
        rw [ite_self] at hih
        simp [hih, List.sum_cons, List.flatten_cons, List.length_append]
        omega

/-- C2 (amended): for every successful encode of a nonempty sequence, the
per-set byte counts sum to the size of the whole written bitstream file (the
header bytes are part of the first set's entry, not excluded). -/
theorem c2_bytes_sum_to_file_size (cfg : EncoderConfig) (st : CodecState)
    (input : EncInput) (s : EncSuccess)
    (hok : (CFP_CODEC.encode cfg st input).result = Except.ok s)
    (hne : 0 < nbframesOf (dataAfterDownsample cfg input)) :
    s.bytes.sum = s.bitstream.length := by
  obtain ⟨t0, x0, rest, bl, cs, lg, hd, hall, hloop, hs, -, -, -⟩ :=
    encodeCore_ok_inv cfg st input.org_input_height input.org_input_width
      (dataAfterDownsample cfg input) s hok
  subst hs
  have hlen : (framesOf (dataAfterDownsample cfg input)
      (nbframesOf (dataAfterDownsample cfg input))).length =
      nbframesOf (dataAfterDownsample cfg input) := by
    simp [framesOf]
  have hsum := encodeLoop_sum cfg _ _ _ _ _ _ _ hloop
  rcases hF : framesOf (dataAfterDownsample cfg input)
      (nbframesOf (dataAfterDownsample cfg input)) with - | ⟨f0, fr⟩
  · rw [hF] at hlen
    simp at hlen
    omega
  · rw [hF] at hsum
    simp only [List.isEmpty_cons, if_false] at hsum
    show bl.sum = (coreHeader cfg input.org_input_height input.org_input_width
      (dataAfterDownsample cfg input) ++ cs.flatten).length
    rw [List.length_append]
    simpa using hsum

/-- Witness for the amended C2 at the concrete example run. -/
theorem c2_bytes_sum_to_file_size_witness :
    (CFP_CODEC.encode exCfg CFP_CODEC.reset exInput).result =
      Except.ok (encOk exOutcome) ∧
    0 < nbframesOf (dataAfterDownsample exCfg exInput) ∧
    (encOk exOutcome).bytes.sum = (encOk exOutcome).bitstream.length :=
  ⟨by decide, by decide,
    c2_bytes_sum_to_file_size exCfg CFP_CODEC.reset exInput (encOk exOutcome)
      (by decide) (by decide)⟩

/-- C2 counterexample: in the concrete example run the reported counts sum to
the whole file size (32 bytes, header included), not to the file size minus
the 24-byte header, refuting the claim as stated. -/
theorem c2_counterexample :
    (CFP_CODEC.encode exCfg CFP_CODEC.reset exInput).result =
      Except.ok (encOk exOutcome) ∧
    (encOk exOutcome).bytes.sum ≠
      (encOk exOutcome).bitstream.length - (headerBytesOf exCfg exInput).length := by
  decide

/-- Downsampling preserves every tag's frame count. -/
theorem dataAfterDownsample_lengths (cfg : EncoderConfig) (input : EncInput) :
    (dataAfterDownsample cfg input).map (fun r => r.2.frames.length) =
      input.data.map (fun r => r.2.frames.length) := by
  unfold dataAfterDownsample
  split
  · simp [interpolate4]
  · rfl

/-- C6: an encode call whose input has unequal per-tag frame counts fails with
the shape-mismatch assertion before the bitstream file is even created, so no
header or payload byte is produced by that call. -/
theorem c6_shape_mismatch_rejected (cfg : EncoderConfig) (st : CodecState)
    (input : EncInput)
    (h : ∃ p ∈ input.data, ∃ q ∈ input.data,
      p.2.frames.length ≠ q.2.frames.length) :
    (CFP_CODEC.encode cfg st input).result = Except.error EncErr.shapeMismatch ∧
    (CFP_CODEC.encode cfg st input).file = none := by
  obtain ⟨p, hp, q, hq, hne⟩ := h
  have hres : (CFP_CODEC.encode cfg st input).result =
      (encodeCore cfg st input.org_input_height input.org_input_width
        (dataAfterDownsample cfg input)).result := rfl
  have hfile : (CFP_CODEC.encode cfg st input).file =
      (encodeCore cfg st input.org_input_height input.org_input_width
        (dataAfterDownsample cfg input)).file := rfl
  rw [hres, hfile]
  have hpL : p.2.frames.length ∈
      (dataAfterDownsample cfg input).map (fun r => r.2.frames.length) := by
    rw [dataAfterDownsample_lengths]
    exact List.mem_map_of_mem _ hp
  have hqL : q.2.frames.length ∈
      (dataAfterDownsample cfg input).map (fun r => r.2.frames.length) := by
    rw [dataAfterDownsample_lengths]
    exact List.mem_map_of_mem _ hq
  rcases hd : dataAfterDownsample cfg input with - | ⟨⟨t0, x0⟩, rest⟩
  · rw [hd] at hpL
    simp at hpL
  · rw [hd] at hpL hqL
    by_cases hall : (rest.all fun r => r.2.frames.length == x0.frames.length) = true
    · exfalso
      have hallL : ∀ a ∈ ((t0, x0) :: rest).map (fun r => r.2.frames.length),
          a = x0.frames.length := by
        intro a ha
        rcases List.mem_map.mp ha with ⟨r, hr, rfl⟩
        rcases List.mem_cons.mp hr with h' | h'
        · rw [h']
        · exact beq_iff_eq.mp (List.all_eq_true.mp hall r h')
      have h1 := hallL _ hpL
      have h2 := hallL _ hqL
      omega
    · simp only [encodeCore]
      rw [if_neg hall]
      exact ⟨rfl, rfl⟩

/-- Witness for C6 at the concrete mismatched input. -/
theorem c6_shape_mismatch_rejected_witness :
    (∃ p ∈ exMismatch.data, ∃ q ∈ exMismatch.data,
      p.2.frames.length ≠ q.2.frames.length) ∧
    ((CFP_CODEC.encode exCfg CFP_CODEC.reset exMismatch).result =
        Except.error EncErr.shapeMismatch ∧
      (CFP_CODEC.encode exCfg CFP_CODEC.reset exMismatch).file = none) :=
  ⟨by decide, c6_shape_mismatch_rejected exCfg CFP_CODEC.reset exMismatch (by decide)⟩

/-- The coding type equals Intra exactly under the source's schedule condition. -/
theorem stepTypeOf_eq_I (cfg : EncoderConfig) (c : Int) :
    stepTypeOf cfg c = FeatureTensorCodingType.I_TYPE ↔
      (cfg.intra_period = -1 ∨ c % cfg.intra_period = 0) := by
  by_cases hb : stepIntra cfg c = true
  · unfold stepTypeOf
    rw [if_pos hb]
    unfold stepIntra at hb
    simp only [Bool.or_eq_true, beq_iff_eq] at hb
    exact ⟨fun _ => hb, fun _ => rfl⟩
  · unfold stepTypeOf
    rw [if_neg hb]
    unfold stepIntra at hb
    simp only [Bool.or_eq_true, beq_iff_eq] at hb
    exact ⟨fun h => FeatureTensorCodingType.noConfusion h, fun h => absurd h hb⟩

/-- The per-set log of a successful loop run: each step's type and search flag
follow the schedule at the advanced counter, an intra step binds the assignment
computed from its own frame, and an inter step keeps the previous step's
assignment (the first step can be inter only if an assignment was bound on
entry). -/
theorem encodeLoop_log (cfg : EncoderConfig) :
    ∀ (frames : List Frame) (count : Int) (asg : Option ClusterMap) (seed : Nat)
      (bl : List Nat) (cs : List (List Nat)) (lg : List StepLog),
      encodeLoop cfg frames count asg seed = Except.ok (bl, cs, lg) →
      lg.length = frames.length ∧
      ∀ e, e < lg.length →
        (lg.getD e default).ftype = stepTypeOf cfg (count + 1 + e) ∧
        (lg.getD e default).searched = stepIntra cfg (count + 1 + e) ∧
        (stepIntra cfg (count + 1 + e) = true →
          (lg.getD e default).clustersUsed =
            search_for_N_clusters (frames.getD e default) cfg.n_cluster) ∧
        (stepIntra cfg (count + 1 + e) = false →
          (e = 0 → asg = some ((lg.getD 0 default).clustersUsed)) ∧
          (0 < e → (lg.getD e default).clustersUsed =
            (lg.getD (e - 1) default).clustersUsed)) := by
  intro frames
  induction frames with
  | nil =>
    intro count asg seed bl cs lg h
    simp only [encodeLoop, Except.ok.injEq, Prod.mk.injEq] at h
    obtain ⟨-, -, rfl⟩ := h
    exact ⟨rfl, fun e he => absurd he (by simp)⟩
  | cons f rest ih =>
    intro count asg seed bl cs lg h
    simp only [encodeLoop] at h
    rcases hasg : nextAsg cfg f (count + 1) asg with - | cm
    · rw [hasg] at h
      exact absurd h (by simp)
    · rw [hasg] at h
      rcases hloop : encodeLoop cfg rest (count + 1) (some cm) 0
        with ⟨⟨err, k, cs0⟩⟩ | ⟨⟨bl0, cs0, lg0⟩⟩
      · rw [hloop] at h
        exact absurd h (by simp)
      · rw [hloop] at h
        have h' := Except.ok.inj h
        simp only [Prod.mk.injEq] at h'
        obtain ⟨-, -, h3⟩ := h'
        subst h3
        obtain ⟨ihlen, ihprops⟩ := ih (count + 1) (some cm) 0 bl0 cs0 lg0 hloop
        refine ⟨by simp [ihlen], ?_⟩
        intro e he
        cases e with
        | zero =>
          have h0 : count + 1 + ((0 : Nat) : Int) = count + 1 := by simp
          refine ⟨by simp, by simp, ?_, ?_⟩
          · intro hI
            rw [h0] at hI
            unfold nextAsg at hasg
            rw [if_pos hI] at hasg
            simp only [List.getD_cons_zero]
            exact (Option.some.inj hasg).symm
          · intro hF
            rw [h0] at hF
            unfold nextAsg at hasg
            rw [if_neg (by simp [hF])] at hasg
            refine ⟨fun _ => ?_, fun hlt => absurd hlt (lt_irrefl 0)⟩
            simpa using hasg
        | succ e1 =>
          have he' : e1 < lg0.length := by simpa using he
          have harg : count + 1 + ((e1 + 1 : Nat) : Int) =
              count + 1 + 1 + (e1 : Int) := by
            push_cast
            ring
          obtain ⟨ih1, ih2, ih3, ih4⟩ := ihprops e1 he'
          refine ⟨?_, ?_, ?_, ?_⟩
          · rw [List.getD_cons_succ, harg]
            exact ih1
          · rw [List.getD_cons_succ, harg]
            exact ih2
          · intro hI
            rw [harg] at hI
            simp only [List.getD_cons_succ]
            exact ih3 hI
          · intro hF
            rw [harg] at hF
            obtain ⟨ihz, ihpos⟩ := ih4 hF
            refine ⟨fun hz => absurd hz (by simp), fun _ => ?_⟩
            cases e1 with
            | zero =>
              have hcm := ihz rfl
              simp only [List.getD_cons_succ, List.getD_cons_zero]
              exact (Option.some.inj hcm).symm
            | succ e2 =>
              have hstep := ihpos (by omega)
              simp only [List.getD_cons_succ]
              simpa using hstep

/-- C1: on a freshly reset session, the coding type of the set at position
`poc` is Intra exactly when `intra_period = -1` or `poc % intra_period = 0`;
in particular with `intra_period = -1` every set is Intra, and with
`intra_period = K > 0` exactly the multiples of `K` are Intra. -/
theorem c1_coding_type_schedule (cfg : EncoderConfig) (input : EncInput)
    (s : EncSuccess)
    (hok : (CFP_CODEC.encode cfg CFP_CODEC.reset input).result = Except.ok s)
    (e : Nat)
    (he : e < (CFP_CODEC.encode cfg CFP_CODEC.reset input).log.length) :
    (((CFP_CODEC.encode cfg CFP_CODEC.reset input).log.getD e default).ftype =
        FeatureTensorCodingType.I_TYPE ↔
      (cfg.intra_period = -1 ∨ (e : Int) % cfg.intra_period = 0)) ∧
    (cfg.intra_period = -1 →
      ((CFP_CODEC.encode cfg CFP_CODEC.reset input).log.getD e default).ftype =
        FeatureTensorCodingType.I_TYPE) ∧
    (∀ K : Int, cfg.intra_period = K → 0 < K →
      (((CFP_CODEC.encode cfg CFP_CODEC.reset input).log.getD e default).ftype =
          FeatureTensorCodingType.I_TYPE ↔ K ∣ (e : Int))) := by
  have hlogeq : (CFP_CODEC.encode cfg CFP_CODEC.reset input).log =
      (encodeCore cfg CFP_CODEC.reset input.org_input_height
        input.org_input_width (dataAfterDownsample cfg input)).log := rfl
  obtain ⟨t0, x0, rest, bl, cs, lg, hd, hall, hloop, hs, hlog, -, -⟩ :=
    encodeCore_ok_inv cfg CFP_CODEC.reset input.org_input_height
      input.org_input_width (dataAfterDownsample cfg input) s hok
  rw [hlogeq, hlog] at he ⊢
  obtain ⟨hlen, hprops⟩ := encodeLoop_log cfg _ _ _ _ _ _ _ hloop
  obtain ⟨h1, -, -, -⟩ := hprops e he
  have hcnt : CFP_CODEC.reset.feature_set_order_count + 1 + (e : Int) = (e : Int) := by
    show (-1 : Int) + 1 + (e : Int) = (e : Int)
    ring
  rw [hcnt] at h1
  rw [h1]
  refine ⟨stepTypeOf_eq_I cfg e, ?_, ?_⟩
  · intro hip
    rw [stepTypeOf_eq_I]
    exact Or.inl hip
  · intro K hK hKpos
    rw [stepTypeOf_eq_I]
    constructor
    · rintro (h | h)
      · exfalso
        omega
      · rw [hK] at h
        exact Int.dvd_of_emod_eq_zero h
    · intro hdvd
      refine Or.inr ?_
      rw [hK]
      exact Int.emod_eq_zero_of_dvd hdvd

/-- Witness for C1: in the three-frame example with `intra_period = 2`, the
set at position 1 follows the schedule (it is InterPredicted). -/
theorem c1_coding_type_schedule_witness :
    (CFP_CODEC.encode exCfg CFP_CODEC.reset exInput3).result =
      Except.ok (encOk exOutcome3) ∧
    1 < (CFP_CODEC.encode exCfg CFP_CODEC.reset exInput3).log.length ∧
    (((((CFP_CODEC.encode exCfg CFP_CODEC.reset exInput3).log.getD 1
          default).ftype = FeatureTensorCodingType.I_TYPE) ↔
      (exCfg.intra_period = -1 ∨ ((1 : Nat) : Int) % exCfg.intra_period = 0)) ∧
    (exCfg.intra_period = -1 →
      (((CFP_CODEC.encode exCfg CFP_CODEC.reset exInput3).log.getD 1
          default).ftype = FeatureTensorCodingType.I_TYPE)) ∧
    (∀ K : Int, exCfg.intra_period = K → 0 < K →
      (((((CFP_CODEC.encode exCfg CFP_CODEC.reset exInput3).log.getD 1
            default).ftype = FeatureTensorCodingType.I_TYPE)) ↔
        K ∣ ((1 : Nat) : Int)))) :=
  ⟨by decide, by decide,
    c1_coding_type_schedule exCfg exInput3 (encOk exOutcome3) (by decide) 1
      (by decide)⟩

/-- The assigned type is Intra exactly when the step decision flag is set. -/
theorem stepTypeOf_I_iff (cfg : EncoderConfig) (c : Int) :
    stepTypeOf cfg c = FeatureTensorCodingType.I_TYPE ↔
      stepIntra cfg c = true := by
  unfold stepTypeOf
  cases hbv : stepIntra cfg c <;> simp [hbv]

/-- The assigned type is InterPredicted exactly when the decision flag is off. -/
theorem stepTypeOf_PB_iff (cfg : EncoderConfig) (c : Int) :
    stepTypeOf cfg c = FeatureTensorCodingType.PB_TYPE ↔
      stepIntra cfg c = false := by
  unfold stepTypeOf
  cases hbv : stepIntra cfg c <;> simp [hbv]

/-- C3: during a successful encode, the cluster search runs exactly on the
intra steps, every inter step reuses unchanged the assignment of the previous
step (so, chained, the one of the most recent preceding intra step, and step 0
is never inter), and suppression at each step uses the currently bound
(logged) assignment. -/
theorem c3_cluster_reuse (cfg : EncoderConfig) (st : CodecState)
    (input : EncInput) (s : EncSuccess)
    (hok : (CFP_CODEC.encode cfg st input).result = Except.ok s)
    (e : Nat) (he : e < (CFP_CODEC.encode cfg st input).log.length) :
    (((CFP_CODEC.encode cfg st input).log.getD e default).searched = true ↔
      ((CFP_CODEC.encode cfg st input).log.getD e default).ftype =
        FeatureTensorCodingType.I_TYPE) ∧
    (((CFP_CODEC.encode cfg st input).log.getD e default).ftype =
        FeatureTensorCodingType.I_TYPE →
      ((CFP_CODEC.encode cfg st input).log.getD e default).clustersUsed =
        search_for_N_clusters
          ((framesOf (dataAfterDownsample cfg input)
              (nbframesOf (dataAfterDownsample cfg input))).getD e default)
          cfg.n_cluster) ∧
    (((CFP_CODEC.encode cfg st input).log.getD e default).ftype =
        FeatureTensorCodingType.PB_TYPE →
      0 < e ∧
      ((CFP_CODEC.encode cfg st input).log.getD e default).clustersUsed =
        ((CFP_CODEC.encode cfg st input).log.getD (e - 1) default).clustersUsed)
    := by
  have hlogeq : (CFP_CODEC.encode cfg st input).log =
      (encodeCore cfg st input.org_input_height input.org_input_width
        (dataAfterDownsample cfg input)).log := rfl
  obtain ⟨t0, x0, rest, bl, cs, lg, hd, hall, hloop, hs, hlog, -, -⟩ :=
    encodeCore_ok_inv cfg st input.org_input_height input.org_input_width
      (dataAfterDownsample cfg input) s hok
  rw [hlogeq, hlog] at he ⊢
  obtain ⟨hlen, hprops⟩ := encodeLoop_log cfg _ _ _ _ _ _ _ hloop
  obtain ⟨h1, h2, h3, h4⟩ := hprops e he
  refine ⟨?_, ?_, ?_⟩
  · rw [h1, h2]
    exact (stepTypeOf_I_iff cfg _).symm
  · intro hI
    rw [h1] at hI
    exact h3 ((stepTypeOf_I_iff cfg _).mp hI)
  · intro hPB
    rw [h1] at hPB
    obtain ⟨hz, hpos⟩ := h4 ((stepTypeOf_PB_iff cfg _).mp hPB)
    rcases Nat.eq_zero_or_pos e with hzero | hepos
    · exact absurd (hz hzero) (fun hh => Option.noConfusion hh)
    · exact ⟨hepos, hpos hepos⟩

/-- Witness for C3: in the three-frame example the set at position 1 is inter
and reuses the assignment bound at the intra step 0. -/
theorem c3_cluster_reuse_witness :
    (CFP_CODEC.encode exCfg CFP_CODEC.reset exInput3).result =
      Except.ok (encOk exOutcome3) ∧
    1 < (CFP_CODEC.encode exCfg CFP_CODEC.reset exInput3).log.length ∧
    (((((CFP_CODEC.encode exCfg CFP_CODEC.reset exInput3).log.getD 1
          default).searched = true) ↔
      (((CFP_CODEC.encode exCfg CFP_CODEC.reset exInput3).log.getD 1
          default).ftype = FeatureTensorCodingType.I_TYPE)) ∧
    ((((CFP_CODEC.encode exCfg CFP_CODEC.reset exInput3).log.getD 1
          default).ftype = FeatureTensorCodingType.I_TYPE) →
      (((CFP_CODEC.encode exCfg CFP_CODEC.reset exInput3).log.getD 1
          default).clustersUsed =
        search_for_N_clusters
          ((framesOf (dataAfterDownsample exCfg exInput3)
              (nbframesOf (dataAfterDownsample exCfg exInput3))).getD 1 default)
          exCfg.n_cluster)) ∧
    ((((CFP_CODEC.encode exCfg CFP_CODEC.reset exInput3).log.getD 1
          default).ftype = FeatureTensorCodingType.PB_TYPE) →
      0 < 1 ∧
      (((CFP_CODEC.encode exCfg CFP_CODEC.reset exInput3).log.getD 1
          default).clustersUsed =
        (((CFP_CODEC.encode exCfg CFP_CODEC.reset exInput3).log.getD (1 - 1)
          default).clustersUsed)))) :=
  ⟨by decide, by decide,
    c3_cluster_reuse exCfg CFP_CODEC.reset exInput3 (encOk exOutcome3)
      (by decide) 1 (by decide)⟩

/-- The full-channel shapes reconstructed for one tensor set. -/
def fullShapes (f : Frame) : List FTensor3 :=
  f.map (fun p => ⟨p.2.channels, p.2.height, p.2.width⟩)

/-- The payload one coded set contributes, in terms of the original frame. -/
def framePayload (f : Frame) : List Nat :=
  (f.map (fun p => shapeBytes p.2.channels p.2.height p.2.width)).flatten

/-- The engine payload for the suppressed channels equals the original frame's
payload: the coding groups cover every original channel, and suppression keeps
the spatial size. -/
theorem tensorPayload_suppression (f : Frame) (cm : ClusterMap) :
    tensorPayload (feature_channel_suppression f cm).1
      (feature_channel_suppression f cm).2 = framePayload f := by
  unfold tensorPayload feature_channel_suppression framePayload
  rw [List.zip_map', List.map_map]
  congr 1
  apply List.map_congr_left
  intro p _
  simp [shapeBytes]

/-- Every chunk written by the loop is a marker byte followed by the set's
payload. -/
theorem chunkOf_eq (cfg : EncoderConfig) (f : Frame) (c : Int) (cm : ClusterMap) :
    chunkOf cfg f c cm = (if stepIntra cfg c then 0 else 1) :: framePayload f := by
  unfold chunkOf stepTypeOf
  by_cases hb : stepIntra cfg c = true
  · rw [if_pos hb, if_pos hb]
    show (0 : Nat) :: tensorPayload (feature_channel_suppression f cm).1
        (feature_channel_suppression f cm).2 = _
    rw [tensorPayload_suppression]
  · rw [if_neg hb, if_neg hb]
    show (1 : Nat) :: tensorPayload (feature_channel_suppression f cm).1
        (feature_channel_suppression f cm).2 = _
    rw [tensorPayload_suppression]

/-- Parsing a set's payload recovers the full-channel shapes and the rest. -/
theorem parseShapes_framePayload (f : Frame) (rest : List Nat) :
    parseShapes f.length (framePayload f ++ rest) = some (fullShapes f, rest) := by
  induction f with
  | nil => rfl
  | cons p f ih =>
    show parseShapes (f.length + 1)
      ((shapeBytes p.2.channels p.2.height p.2.width ++ framePayload f) ++ rest)
      = _
    rw [List.append_assoc]
    unfold shapeBytes
    rw [List.append_assoc, List.append_assoc]
    simp only [parseShapes, parseNatU_natUnary, ih]
    rfl

/-- Decoding the chunks of a successful loop run recovers each set's
full-channel shapes, consuming exactly the written bytes. -/
theorem decodeLoop_encodeLoop (cfg : EncoderConfig) (sps : SequenceParameterSet) :
    ∀ (frames : List Frame) (count : Int) (asg : Option ClusterMap) (seed : Nat)
      (bl : List Nat) (cs : List (List Nat)) (lg : List StepLog),
      encodeLoop cfg frames count asg seed = Except.ok (bl, cs, lg) →
      (∀ f ∈ frames, f.length = sps.size_of_feature_set) →
      ∀ r, decodeLoop sps frames.length (cs.flatten ++ r) =
        some (frames.map fullShapes, r) := by
  intro frames
  induction frames with
  | nil =>
    intro count asg seed bl cs lg h _ r
    simp only [encodeLoop, Except.ok.injEq, Prod.mk.injEq] at h
    obtain ⟨-, rfl, -⟩ := h
    rfl
  | cons f rest ih =>
    intro count asg seed bl cs lg h hlen r
    simp only [encodeLoop] at h
    rcases hasg : nextAsg cfg f (count + 1) asg with - | cm
    · rw [hasg] at h
      exact absurd h (by simp)
    · rw [hasg] at h
      rcases hloop : encodeLoop cfg rest (count + 1) (some cm) 0
        with ⟨⟨err, k, cs0⟩⟩ | ⟨⟨bl0, cs0, lg0⟩⟩
      · rw [hloop] at h
        exact absurd h (by simp)
      · rw [hloop] at h
        have h' := Except.ok.inj h
        simp only [Prod.mk.injEq] at h'
        obtain ⟨-, h2, -⟩ := h'
        subst h2
        have hfl : f.length = sps.size_of_feature_set := hlen f (by simp)
        have hrec : decodeLoop sps rest.length (cs0.flatten ++ r) =
            some (rest.map fullShapes, r) :=
          ih (count + 1) (some cm) 0 bl0 cs0 lg0 hloop
            (fun g hg => hlen g (by simp [hg])) r
        have hps : parseShapes sps.size_of_feature_set
            (framePayload f ++ (cs0.flatten ++ r)) =
            some (fullShapes f, cs0.flatten ++ r) := by
          rw [← hfl]
          exact parseShapes_framePayload f _
        show decodeLoop sps (rest.length + 1)
          ((chunkOf cfg f (count + 1) cm :: cs0).flatten ++ r) = _
        rw [chunkOf_eq]
        simp only [List.flatten_cons, List.cons_append, List.append_assoc]
        by_cases hb : stepIntra cfg (count + 1) = true
        · rw [if_pos hb]
          simp only [decodeLoop, parse_feature_tensor_coding_type,
            decode_feature_tensor, intra_decoding, hps, hrec, List.map_cons]
        · rw [if_neg hb]
          simp only [decodeLoop, parse_feature_tensor_coding_type,
            decode_feature_tensor, inter_decoding, hps, hrec, List.map_cons]

/-- The sequence parameter set that encode serializes into the header. -/
def spsOf (cfg : EncoderConfig) (orgH orgW : Nat)
    (data1 : List (Tag × FTensor4)) : SequenceParameterSet :=
  { SequenceParameterSet.digest ⟨data1, orgH, orgW⟩ with
    nbframes := nbframesOf data1
    qp := cfg.qp.getD 0
    qp_density := cfg.qp_density
    is_downsampled := cfg.downsample
    dc_qp_offset := cfg.dc_qp_offset
    dc_qp_density_offset := cfg.dc_qp_density_offset }

/-- Reading back the header bytes written by encode yields the same fields. -/
theorem coreHeader_read (cfg : EncoderConfig) (orgH orgW : Nat)
    (data1 : List (Tag × FTensor4)) (rest : List Nat) :
    SequenceParameterSet.read (coreHeader cfg orgH orgW data1 ++ rest) =
      some (spsOf cfg orgH orgW data1, rest) := by
  unfold coreHeader SequenceParameterSet.write spsOf
  apply sps_read_serialize
  simp [SequenceParameterSet.digest]

/-- Indexing through a map below the length. -/
theorem getD_map_of_lt {α β : Type} (l : List α) (g : α → β) (i : Nat)
    (h : i < l.length) (d : α) (d2 : β) :
    (l.map g).getD i d2 = g (l.getD i d) := by
  rw [List.getD_eq_getElem?_getD, List.getD_eq_getElem?_getD,
    List.getElem?_map, List.getElem?_eq_getElem h]
  rfl

/-- Indexing a mapped range below the bound. -/
theorem getD_range_map {β : Type} (n i : Nat) (g : Nat → β) (h : i < n)
    (d : β) : ((List.range n).map g).getD i d = g i := by
  rw [getD_map_of_lt _ _ _ (by simpa using h) 0]
  congr 1
  rw [List.getD_eq_getElem?_getD, List.getElem?_range h]
  rfl

/-- The per-set list has exactly `n` sets. -/
theorem framesOf_length (d : List (Tag × FTensor4)) (n : Nat) :
    (framesOf d n).length = n := by
  simp [framesOf]

/-- The set at position `e` maps each tag to its `e`-th frame. -/
theorem framesOf_getD (d : List (Tag × FTensor4)) (n e : Nat) (he : e < n) :
    (framesOf d n).getD e default =
      d.map (fun p => (p.1, p.2.frames.getD e default)) := by
  unfold framesOf
  rw [getD_range_map _ _ _ he]

/-- Every yielded set has one entry per tag. -/
theorem mem_framesOf_length (d : List (Tag × FTensor4)) (n : Nat) :
    ∀ f ∈ framesOf d n, f.length = d.length := by
  intro f hf
  obtain ⟨e, -, rfl⟩ := List.mem_map.mp hf
  simp

/-- Downsampling keeps the number of tags. -/
theorem dataAfterDownsample_length (cfg : EncoderConfig) (input : EncInput) :
    (dataAfterDownsample cfg input).length = input.data.length := by
  unfold dataAfterDownsample
  split <;> simp

/-- Downsampling keeps the first layer's frame count. -/
theorem nbframesOf_dataAfterDownsample (cfg : EncoderConfig) (input : EncInput) :
    nbframesOf (dataAfterDownsample cfg input) = nbframesOf input.data := by
  unfold dataAfterDownsample
  split
  · cases hdat : input.data with
    | nil => rfl
    | cons p d => simp [nbframesOf, interpolate4]
  · rfl

/-- After the frame-count check passed, every tag has the first layer's frame
count. -/
theorem all_lengths_of_check (t0 : Tag) (x0 : FTensor4)
    (rest : List (Tag × FTensor4))
    (hall : (rest.all fun r => r.2.frames.length == x0.frames.length) = true) :
    ∀ p ∈ (t0, x0) :: rest, p.2.frames.length = nbframesOf ((t0, x0) :: rest) := by
  intro p hp
  rcases List.mem_cons.mp hp with h | h
  · rw [h]
    rfl
  · exact beq_iff_eq.mp (List.all_eq_true.mp hall p h)

/-- The data mapping a decode of this encode's bitstream returns, in closed
form: placeholder integer tags, the per-set full-channel shapes stacked per
tag, upsampled when downsampling was on. -/
def roundTripData (cfg : EncoderConfig) (input : EncInput) :
    List (Tag × FTensor4) :=
  let d1 := dataAfterDownsample cfg input
  let sets := (framesOf d1 (nbframesOf d1)).map fullShapes
  let stacked := (List.range d1.length).map
    (fun i => (Tag.num i, FTensor4.mk (sets.map (fun s => s.getD i default))))
  if cfg.downsample then stacked.map (fun p => (p.1, interpolate4 2 1 p.2))
  else stacked

/-- Decoding the bitstream of a successful encode succeeds and returns exactly
the closed-form data mapping. -/
theorem decode_encode_ok (cfg : EncoderConfig) (st dst : CodecState)
    (input : EncInput) (s : EncSuccess)
    (hok : (CFP_CODEC.encode cfg st input).result = Except.ok s) :
    ∃ o, (CFP_CODEC.decode dst s.bitstream).result = Except.ok o ∧
      o.data = roundTripData cfg input := by
  obtain ⟨t0, x0, rest, bl, cs, lg, hd, hall, hloop, hs, -, -, -⟩ :=
    encodeCore_ok_inv cfg st input.org_input_height input.org_input_width
      (dataAfterDownsample cfg input) s hok
  subst hs
  show ∃ o, (CFP_CODEC.decode dst (coreHeader cfg input.org_input_height
      input.org_input_width (dataAfterDownsample cfg input) ++ cs.flatten)).result
      = Except.ok o ∧ o.data = roundTripData cfg input
  have hmem : ∀ f ∈ framesOf (dataAfterDownsample cfg input)
      (nbframesOf (dataAfterDownsample cfg input)),
      f.length = (spsOf cfg input.org_input_height input.org_input_width
        (dataAfterDownsample cfg input)).size_of_feature_set := by
    intro f hf
    have h1 := mem_framesOf_length _ _ f hf
    rw [h1]
    rfl
  have hdl := decodeLoop_encodeLoop cfg
    (spsOf cfg input.org_input_height input.org_input_width
      (dataAfterDownsample cfg input))
    (framesOf (dataAfterDownsample cfg input)
      (nbframesOf (dataAfterDownsample cfg input)))
    st.feature_set_order_count none
    (coreHeader cfg input.org_input_height input.org_input_width
      (dataAfterDownsample cfg input)).length bl cs lg hloop hmem []
  rw [List.append_nil, framesOf_length] at hdl
  have hnb : (spsOf cfg input.org_input_height input.org_input_width
      (dataAfterDownsample cfg input)).nbframes =
      nbframesOf (dataAfterDownsample cfg input) := rfl
  simp only [CFP_CODEC.decode, coreHeader_read, hnb, hdl]
  exact ⟨_, rfl, rfl⟩

/-- The decoded tag list is the placeholder range of integer tags. -/
theorem roundTripData_fst (cfg : EncoderConfig) (input : EncInput) :
    (roundTripData cfg input).map Prod.fst =
      (List.range input.data.length).map Tag.num := by
  unfold roundTripData
  rw [← dataAfterDownsample_length cfg input]
  split
  · rw [List.map_map, List.map_map]
    rfl
  · rw [List.map_map]
    rfl

/-- The decoded mapping has as many tags as the input. -/
theorem roundTripData_length (cfg : EncoderConfig) (input : EncInput) :
    (roundTripData cfg input).length = input.data.length := by
  have h := congrArg List.length (roundTripData_fst cfg input)
  simpa using h

/-- Rescaling a 4-D stack rescales each frame. -/
theorem interpolate4_frames (a b : Nat) (t : FTensor4) :
    (interpolate4 a b t).frames = t.frames.map (interpolate3 a b) := rfl

/-- Frames of a literal stack. -/
theorem FTensor4_mk_frames (L : List FTensor3) : (FTensor4.mk L).frames = L := rfl

/-- Per-tag, per-set shape fidelity of the round trip: channel counts are
preserved exactly, and each spatial dimension is recovered within one pixel
(exactly, when downsampling is off). -/
theorem roundTripData_shapes (cfg : EncoderConfig) (input : EncInput)
    (hallI : ∀ p ∈ input.data, p.2.frames.length = nbframesOf input.data)
    (i e : Nat) (hi : i < input.data.length)
    (he : e < nbframesOf input.data) :
    (((roundTripData cfg input).getD i default).2.frames.getD e default).channels
      = ((input.data.getD i default).2.frames.getD e default).channels ∧
    (((roundTripData cfg input).getD i default).2.frames.getD e default).height
      ≤ ((input.data.getD i default).2.frames.getD e default).height ∧
    ((input.data.getD i default).2.frames.getD e default).height
      ≤ (((roundTripData cfg input).getD i default).2.frames.getD e
          default).height + 1 ∧
    (((roundTripData cfg input).getD i default).2.frames.getD e default).width
      ≤ ((input.data.getD i default).2.frames.getD e default).width ∧
    ((input.data.getD i default).2.frames.getD e default).width
      ≤ (((roundTripData cfg input).getD i default).2.frames.getD e
          default).width + 1 := by
  have hd1len := dataAfterDownsample_length cfg input
  have hnb := nbframesOf_dataAfterDownsample cfg input
  have hi1 : i < (dataAfterDownsample cfg input).length := by omega
  have he1 : e < nbframesOf (dataAfterDownsample cfg input) := by omega
  set d1 := dataAfterDownsample cfg input with hd1def
  set S := (framesOf d1 (nbframesOf d1)).map fullShapes with hSdef
  have hSlen : S.length = nbframesOf d1 := by
    rw [hSdef, List.length_map, framesOf_length]
  have hcore : (S.getD e default).getD i default =
      (d1.getD i default).2.frames.getD e default := by
    rw [hSdef]
    rw [getD_map_of_lt (framesOf d1 (nbframesOf d1)) fullShapes e
      (by rw [framesOf_length]; exact he1) default default]
    rw [framesOf_getD _ _ _ he1]
    unfold fullShapes
    rw [List.map_map]
    rw [getD_map_of_lt d1 _ i hi1 (default : Tag × FTensor4)
      (default : FTensor3)]
    rfl
  have hPmem : input.data.getD i default ∈ input.data := by
    have hgd : input.data.getD i default = input.data[i] := by
      rw [List.getD_eq_getElem?_getD, List.getElem?_eq_getElem hi]
      rfl
    rw [hgd]
    exact List.getElem_mem hi
  have hPlen := hallI _ hPmem
  have hb2 : e < S.length := by
    rw [hSlen]
    exact he1
  by_cases hds : cfg.downsample = true
  · have hrt : (roundTripData cfg input).getD i default =
        (Tag.num i, interpolate4 2 1 (FTensor4.mk
          (S.map (fun s => s.getD i default)))) := by
      simp only [roundTripData]
      rw [← hd1def, ← hSdef, if_pos hds, List.map_map]
      rw [getD_range_map _ i _ hi1 (default : Tag × FTensor4)]
      rfl
    have hdd : d1.getD i default = ((input.data.getD i default).1,
        interpolate4 1 2 (input.data.getD i default).2) := by
      rw [hd1def]
      unfold dataAfterDownsample
      rw [if_pos hds]
      rw [getD_map_of_lt input.data _ i hi (default : Tag × FTensor4)
        (default : Tag × FTensor4)]
    have hb1 : e < (S.map (fun s => s.getD i (default : FTensor3))).length := by
      rw [List.length_map]
      exact hb2
    have hb3 : e < (input.data.getD i default).2.frames.length := by
      omega
    have hA : ((roundTripData cfg input).getD i default).2.frames.getD e default
        = interpolate3 2 1 (interpolate3 1 2
            ((input.data.getD i default).2.frames.getD e default)) := by
      rw [hrt, interpolate4_frames, FTensor4_mk_frames]
      rw [getD_map_of_lt (S.map (fun s => s.getD i default)) (interpolate3 2 1)
        e hb1 default default]
      rw [getD_map_of_lt S (fun s => s.getD i default) e hb2 default default]
      rw [hcore, hdd]
      show interpolate3 2 1 ((interpolate4 1 2
        (input.data.getD i default).2).frames.getD e default) = _
      rw [interpolate4_frames]
      rw [getD_map_of_lt _ (interpolate3 1 2) e hb3 default default]
    rw [hA]
    refine ⟨?_, ?_, ?_, ?_, ?_⟩ <;> simp only [interpolate3] <;> omega
  · have hrt : (roundTripData cfg input).getD i default =
        (Tag.num i, FTensor4.mk (S.map (fun s => s.getD i default))) := by
      simp only [roundTripData]
      rw [← hd1def, ← hSdef, if_neg hds]
      rw [getD_range_map _ i _ hi1 (default : Tag × FTensor4)]
    have hddEq : d1 = input.data := by
      rw [hd1def]
      unfold dataAfterDownsample
      rw [if_neg hds]
    have hA : ((roundTripData cfg input).getD i default).2.frames.getD e default
        = (input.data.getD i default).2.frames.getD e default := by
      rw [hrt]
      show (FTensor4.mk (S.map (fun s => s.getD i default))).frames.getD e
        default = _
      rw [FTensor4_mk_frames]
      rw [getD_map_of_lt S (fun s => s.getD i default) e hb2 default default]
      rw [hcore, hddEq]
    rw [hA]
    exact ⟨rfl, le_refl _, by omega, le_refl _, by omega⟩

/-- The passed frame-count check, read back on the original input mapping. -/
theorem input_all_lengths_of_check (cfg : EncoderConfig) (input : EncInput)
    (hall : ∀ p ∈ dataAfterDownsample cfg input,
      p.2.frames.length = nbframesOf (dataAfterDownsample cfg input)) :
    ∀ p ∈ input.data, p.2.frames.length = nbframesOf input.data := by
  intro p hp
  rw [← nbframesOf_dataAfterDownsample cfg input]
  unfold dataAfterDownsample at hall ⊢
  by_cases hds : cfg.downsample = true
  · rw [if_pos hds] at hall ⊢
    have h := hall (p.1, interpolate4 1 2 p.2) (List.mem_map_of_mem _ hp)
    simpa [interpolate4] using h
  · rw [if_neg hds] at hall ⊢
    exact hall p hp

/-- C4 (amended): decoding an encoded sequence succeeds; the decoded mapping
has one entry per input tag but under placeholder integer tags `0..n-1`, not
the original tag identifiers; the channel count of every tag at every time
step is preserved exactly; and each spatial dimension is recovered within at
most one pixel after the inverse upsample (exactly, when downsampling is
off). -/
theorem c4_roundtrip_shapes (cfg : EncoderConfig) (st dst : CodecState)
    (input : EncInput) (s : EncSuccess)
    (hok : (CFP_CODEC.encode cfg st input).result = Except.ok s) :
    ∃ o, (CFP_CODEC.decode dst s.bitstream).result = Except.ok o ∧
      o.data.map Prod.fst = (List.range input.data.length).map Tag.num ∧
      o.data.length = input.data.length ∧
      ∀ i e, i < input.data.length → e < nbframesOf input.data →
        ((o.data.getD i default).2.frames.getD e default).channels =
          ((input.data.getD i default).2.frames.getD e default).channels ∧
        ((o.data.getD i default).2.frames.getD e default).height ≤
          ((input.data.getD i default).2.frames.getD e default).height ∧
        ((input.data.getD i default).2.frames.getD e default).height ≤
          ((o.data.getD i default).2.frames.getD e default).height + 1 ∧
        ((o.data.getD i default).2.frames.getD e default).width ≤
          ((input.data.getD i default).2.frames.getD e default).width ∧
        ((input.data.getD i default).2.frames.getD e default).width ≤
          ((o.data.getD i default).2.frames.getD e default).width + 1 := by
  obtain ⟨o, hdec, hdata⟩ := decode_encode_ok cfg st dst input s hok
  obtain ⟨t0, x0, rest, bl, cs, lg, hd, hall, -, -, -, -, -⟩ :=
    encodeCore_ok_inv cfg st input.org_input_height input.org_input_width
      (dataAfterDownsample cfg input) s hok
  have hallD : ∀ p ∈ dataAfterDownsample cfg input,
      p.2.frames.length = nbframesOf (dataAfterDownsample cfg input) := by
    rw [hd]
    exact all_lengths_of_check t0 x0 rest hall
  have hallI := input_all_lengths_of_check cfg input hallD
  refine ⟨o, hdec, ?_, ?_, ?_⟩
  · rw [hdata]
    exact roundTripData_fst cfg input
  · rw [hdata]
    exact roundTripData_length cfg input
  · intro i e hi he
    rw [hdata]
    exact roundTripData_shapes cfg input hallI i e hi he

/-- C4 counterexample: the concrete encode-then-decode run returns tag `0`
instead of the original string tag `p2`, so the decoded tag set is not the
encoder input's tag set as the claim requires. -/
theorem c4_tagset_cex :
    (CFP_CODEC.decode CFP_CODEC.reset exFile).result =
      Except.ok (decOk (CFP_CODEC.decode CFP_CODEC.reset exFile)) ∧
    (decOk (CFP_CODEC.decode CFP_CODEC.reset exFile)).data.map Prod.fst ≠
      exInput.data.map Prod.fst := by decide

/-- Witness for the amended C4 at the concrete example run. -/
theorem c4_roundtrip_shapes_witness :
    (CFP_CODEC.encode exCfg CFP_CODEC.reset exInput).result =
      Except.ok (encOk exOutcome) ∧
    (∃ o, (CFP_CODEC.decode CFP_CODEC.reset (encOk exOutcome).bitstream).result
        = Except.ok o ∧
      o.data.map Prod.fst = (List.range exInput.data.length).map Tag.num ∧
      o.data.length = exInput.data.length ∧
      ∀ i e, i < exInput.data.length → e < nbframesOf exInput.data →
        ((o.data.getD i default).2.frames.getD e default).channels =
          ((exInput.data.getD i default).2.frames.getD e default).channels ∧
        ((o.data.getD i default).2.frames.getD e default).height ≤
          ((exInput.data.getD i default).2.frames.getD e default).height ∧
        ((exInput.data.getD i default).2.frames.getD e default).height ≤
          ((o.data.getD i default).2.frames.getD e default).height + 1 ∧
        ((o.data.getD i default).2.frames.getD e default).width ≤
          ((exInput.data.getD i default).2.frames.getD e default).width ∧
        ((exInput.data.getD i default).2.frames.getD e default).width ≤
          ((o.data.getD i default).2.frames.getD e default).width + 1) :=
  ⟨by decide,
    c4_roundtrip_shapes exCfg CFP_CODEC.reset CFP_CODEC.reset exInput
      (encOk exOutcome) (by decide)⟩

end CfpCodec
